import Mathlib

/-!
Shallow embedding of the quote computation and document-generation pipeline of
`uidemo_streamlit.py` (price-compare-quote repository).

Modelling conventions:
* Python values that may be `None`, a number or a string are modelled by the
  inductive type `RawVal`; Python truthiness is translated explicitly at each
  use site.
* Python `float` arithmetic is modelled by exact rationals (`ℚ`); Python's
  one-argument `round` (round-half-to-even) is `pythonRound`.
* Filesystem and SMTP side effects of `handle_event` are modelled by an
  explicit effect trace (`Effect`); the outcomes of the external PDF
  conversion backends and of the SMTP transport are oracle parameters.
* Spreadsheet cells are addressed by a column name and a row number; the
  f-string `f"E{row}"` becomes the pair `("E", row)`.
-/

set_option autoImplicit false

namespace PriceCompare

/-- A raw JSON-ish value arriving from the UI bridge: Python `None`, a number
(modelled as an integer), or a string. -/
inductive RawVal where
  | pynone
  | num (n : Int)
  | str (s : String)
  deriving DecidableEq, Repr

/-- One raw line-item row of a plan: the `model`, `price` and `qty` entries of
the incoming dict (an absent key behaves like `pynone`). -/
structure RawRow where
  model : RawVal
  price : RawVal
  qty : RawVal
  deriving DecidableEq, Repr

/-- A normalized line item: `{"model": str, "price": int, "qty": int}`. -/
structure NormRow where
  model : String
  price : Int
  qty : Int
  deriving DecidableEq, Repr

def emptyNormRow : NormRow := ⟨"", 0, 0⟩

/-- Python `str.strip()` (whitespace removed from both ends). -/
def pyStrip (s : String) : String :=
  String.mk (((s.toList.dropWhile Char.isWhitespace).reverse.dropWhile
    Char.isWhitespace).reverse)

/-- Value of the digit string `l` read in base 10 (`int` on a digits-only
string); the empty list stands for `int(text or 0)` on an empty text, i.e. 0. -/
def digitsVal (l : List Char) : Nat :=
  l.foldl (fun acc c => acc * 10 + (c.toNat - '0'.toNat)) 0

/-- `parse_number` (source lines 375-384): `None` ↦ 0; an `int`/`float` is
passed through `int(...)` unchanged; a string is stripped, and if non-empty
every non-digit character is removed before `int(text or 0)`. -/
def parse_number : RawVal → Int
  | RawVal.pynone => 0
  | RawVal.num n => n
  | RawVal.str s =>
    let text := pyStrip s
    if text = "" then 0
    else (digitsVal (text.toList.filter Char.isDigit) : Nat)

/-- `str(row.get("model", "") or "").strip()` applied to a raw model value:
`None` and falsy values become `""`, a number is rendered by `str`, a string is
kept, and the result is stripped. -/
def modelOf : RawVal → String
  | RawVal.pynone => ""
  | RawVal.num n => if n = 0 then "" else Int.repr n
  | RawVal.str s => pyStrip s

/-- The normalized row built from a raw row inside the `normalize_rows` loop. -/
def normOfRow (row : RawRow) : NormRow :=
  ⟨modelOf row.model, parse_number row.price, parse_number row.qty⟩

/-- Python truthiness of `if model or price or qty` on a normalized row. -/
def keepRow (r : NormRow) : Bool :=
  r.model != "" || r.price != 0 || r.qty != 0

/-- The loop body of `normalize_rows`: normalize one raw row and append it to
the accumulator when it is kept. -/
def normStep (acc : List NormRow) (row : RawRow) : List NormRow :=
  let r := normOfRow row
  if keepRow r then acc ++ [r] else acc

def MAX_TEMPLATE_ROWS : Nat := 9

/-- `normalize_rows` (source lines 394-406): keep the non-empty rows, fall
back to a single empty placeholder when none survive, pad with empty rows to
`MAX_TEMPLATE_ROWS`, and truncate to `MAX_TEMPLATE_ROWS`. -/
def normalize_rows (rows : List RawRow) : List NormRow :=
  let normalized := rows.foldl normStep []
  let normalized := if normalized = [] then [emptyNormRow] else normalized
  let padded :=
    normalized ++ List.replicate (MAX_TEMPLATE_ROWS - normalized.length) emptyNormRow
  padded.take MAX_TEMPLATE_ROWS

/-- The rows of the input that `normalize_rows` keeps, in order: exactly those
whose trimmed model is non-empty or whose parsed price or qty is nonzero. -/
def survivors (rows : List RawRow) : List NormRow :=
  (rows.map normOfRow).filter keepRow

/-- `compute_totals` (source lines 409-415): sum of `price * qty` over the
rows.  The source re-applies `parse_number` to each entry, which is the
identity on the integer fields of a normalized row. -/
def compute_totals (rows : List NormRow) : Int :=
  rows.foldl (fun acc r => acc + r.price * r.qty) 0

/-- The raw value fed to `parse_float`: either a value Python's `float` accepts
(carried as an exact rational) or an unparsable one (raising
`TypeError`/`ValueError`). -/
inductive FloatRaw where
  | val (q : ℚ)
  | unparsable
  deriving DecidableEq

/-- `parse_float` (source lines 387-391): `float(value)` with unparsable input
treated as `0.0`. -/
def parse_float : FloatRaw → ℚ
  | FloatRaw.val q => q
  | FloatRaw.unparsable => 0

/-- Python's one-argument `round`: round half to even, as an operation on the
exact rational modelling of the float argument. -/
def pythonRound (q : ℚ) : Int :=
  let n := Int.floor q
  let frac := q - (n : ℚ)
  if frac < 1 / 2 then n
  else if 1 / 2 < frac then n + 1
  else if n % 2 = 0 then n else n + 1

/-- The prepay computation of `handle_event` (source lines 622-625):
`int(round(total * (1 - max(discountRate, 0.0))))`. -/
def computePrepay (total : Int) (discountRate : ℚ) : Int :=
  pythonRound ((total : ℚ) * (1 - max discountRate 0))

/-- Groups of at most three characters, taken from the front. -/
def chunk3 : List Char → List (List Char)
  | [] => []
  | a :: b :: c :: rest => [a, b, c] :: chunk3 rest
  | l => [l]

/-- `f"{n:,}"` for a natural number: decimal digits with a comma every three
digits counted from the right. -/
def natComma (n : Nat) : String :=
  String.mk ((((chunk3 (Nat.repr n).toList.reverse).intersperse [',']).flatten).reverse)

/-- `f"{n:,}"` for an integer. -/
def intComma (n : Int) : String :=
  if n < 0 then "-" ++ natComma n.natAbs else natComma n.toNat

/-- `format_won` (source lines 418-423) restricted to its integer callers:
`int(round(float(value)))` is the identity on an integer, so the result is the
comma-grouped amount followed by the currency suffix. -/
def format_won (value : Int) : String :=
  intComma value ++ "원"

/-- `build_summary_text` (source lines 426-433). -/
def build_summary_text (total1 total2 : Int) : String :=
  if total2 < total1 then
    let diff := total1 - total2
    "연 " ++ format_won (diff * 12) ++ " 할인 / 월 " ++ format_won diff ++ " 할인"
  else if total1 < total2 then
    let diff := total2 - total1
    "월 " ++ format_won diff ++ " 추가"
  else "차이 0원"

/-- A spreadsheet cell address: column name and row number; the source's
`f"E{excel_row}"` becomes `("E", excel_row)`. -/
abbrev Cell := String × Nat

/-- A value written into a worksheet cell: a string or a number. -/
inductive CellValue where
  | str (s : String)
  | int (n : Int)
  deriving DecidableEq, Repr

/-- `value if value else ""`: a nonzero number is written as itself; zero is
written as the blank string. -/
def numOrBlank (n : Int) : CellValue :=
  if n = 0 then CellValue.str "" else CellValue.int n

/-- The cell writes of one per-plan row loop of `fill_template` (source lines
469-489): model, price, qty and line total of each row at the fixed row
offset, one Excel row per list entry. -/
def planCells (mc pc qc tc : String) (excelRow : Nat) : List NormRow → List (Cell × CellValue)
  | [] => []
  | row :: rest =>
    ((mc, excelRow), CellValue.str row.model) ::
    ((pc, excelRow), numOrBlank row.price) ::
    ((qc, excelRow), numOrBlank row.qty) ::
    ((tc, excelRow), numOrBlank (row.price * row.qty)) ::
    planCells mc pc qc tc (excelRow + 1) rest

/-- A calendar date as used by the source (`datetime.date`). -/
structure PyDate where
  y : Nat
  m : Nat
  d : Nat
  deriving DecidableEq, Repr

/-- Zero-padded two-digit rendering (`%m`, `%d`). -/
def pad2 (n : Nat) : String :=
  if n < 10 then "0" ++ Nat.repr n else Nat.repr n

/-- Zero-padded four-digit rendering (`%Y`). -/
def pad4 (n : Nat) : String :=
  if n < 10 then "000" ++ Nat.repr n
  else if n < 100 then "00" ++ Nat.repr n
  else if n < 1000 then "0" ++ Nat.repr n
  else Nat.repr n

/-- `format_date_label` (source lines 354-357): `""` for a falsy date,
otherwise `%Y.%m.%d`. -/
def format_date_label : Option PyDate → String
  | Option.none => ""
  | Option.some d => pad4 d.y ++ "." ++ pad2 d.m ++ "." ++ pad2 d.d

/-- `format_file_date` (source lines 360-363): `%m월%d일` of the quote date,
or of today when the quote date is unset. -/
def format_file_date (qd : Option PyDate) (today : PyDate) : String :=
  match qd with
  | Option.none => pad2 today.m ++ "월" ++ pad2 today.d ++ "일"
  | Option.some d => pad2 d.m ++ "월" ++ pad2 d.d ++ "일"

/-- `sanitize_filename` (source lines 348-351): filesystem-illegal characters
become `_`, all whitespace is removed, and an empty result falls back to the
generic stem. -/
def sanitize_filename (text : String) : String :=
  let cleaned := text.toList.map
    (fun c => if c ∈ ['\\', '/', ':', '*', '?', '\"', '<', '>', '|'] then '_' else c)
  let cleaned := cleaned.filter (fun c => !c.isWhitespace)
  if cleaned = [] then "견적서" else String.mk cleaned

/-- `build_filename` (source lines 586-590). -/
def build_filename (recipient : String) (quote_date : Option PyDate) (today : PyDate) : String :=
  let recipient_label := pyStrip recipient
  let base_label := if recipient_label ≠ "" then recipient_label ++ "귀하" else "견적서"
  sanitize_filename (base_label ++ format_file_date quote_date today)

/-- The header cell writes of `fill_template` (source lines 458-467):
recipient, summary, date label, extension, email, and the per-plan raw and
prepay totals. -/
def headerCells (recipient : String) (ext : String) (quote_date : Option PyDate)
    (email : String) (plan1_total plan2_total plan1_prepay plan2_prepay : Int)
    (summary_text : String) : List (Cell × CellValue) :=
  [(("B", 4), CellValue.str recipient),
   (("B", 13), CellValue.str summary_text),
   (("D", 5), CellValue.str (format_date_label quote_date)),
   (("D", 6), CellValue.str ext),
   (("D", 7), CellValue.str email),
   (("E", 11), CellValue.int plan1_total),
   (("N", 11), CellValue.int plan2_total),
   (("E", 12), CellValue.int plan1_prepay),
   (("N", 12), CellValue.int plan2_prepay)]

/-- `fill_template` (source lines 442-491) as the list of cell writes it
performs, in order.  The workbook template is assumed present (its absence
raises before any write); `recipient or ""` and `summary_text or ""` are the
identity on strings. -/
def fill_template (recipient : String) (ext : String) (quote_date : Option PyDate)
    (email : String) (plan1_rows plan2_rows : List NormRow)
    (plan1_total plan2_total plan1_prepay plan2_prepay : Int)
    (summary_text : String) : List (Cell × CellValue) :=
  headerCells recipient ext quote_date email plan1_total plan2_total plan1_prepay
    plan2_prepay summary_text
  ++ planCells "B" "E" "G" "H" 15 plan1_rows
  ++ planCells "K" "N" "P" "Q" 15 plan2_rows

/-- Reading a named cell back from the list of writes (first write wins; no
cell is written twice by `fill_template`). -/
def cellLookup (k : Cell) : List (Cell × CellValue) → Option CellValue
  | [] => Option.none
  | (k2, v) :: rest => if k2 = k then Option.some v else cellLookup k rest

/-- Accumulating loop of `convert_excel_to_pdf` (source lines 501-549): try
each available backend in order, return the first PDF produced, and otherwise
aggregate the collected error messages (with a fixed message when no backend
was available at all). -/
def convertGo : List (Except String String) → List String → Except String String
  | [], errs =>
    Except.error (String.intercalate " / "
      (if errs = [] then ["PDF 변환 도구를 찾을 수 없습니다."] else errs))
  | Except.ok pdf :: _, _ => Except.ok pdf
  | Except.error e :: rest, errs => convertGo rest (errs ++ [e])

/-- `convert_excel_to_pdf`, abstracted over the outcomes of the platform
backends (Excel COM automation, then headless LibreOffice) that are actually
present. -/
def convert_excel_to_pdf (backends : List (Except String String)) : Except String String :=
  convertGo backends []

def HARDCODE_GMAIL_USER : String := "jumsune2@gmail.com"

def HARDCODE_GMAIL_APP_PASSWORD : String := ""

/-- Python truthiness of an optional string (`None` and `""` are falsy). -/
def truthyOpt : Option String → Bool
  | Option.some s => s != ""
  | Option.none => false

/-- Python `a or b` on optional strings: `b` when `a` is falsy. -/
def pyOrOpt (a b : Option String) : Option String :=
  if truthyOpt a then a else b

/-- `resolve_gmail_credentials` (source lines 552-558): the hardcoded pair when
both constants are non-empty, otherwise each component independently from the
secrets store with the environment as fallback. -/
def resolve_gmail_credentials (secrets env : String → Option String) :
    Option String × Option String :=
  if HARDCODE_GMAIL_USER ≠ "" ∧ HARDCODE_GMAIL_APP_PASSWORD ≠ "" then
    (Option.some HARDCODE_GMAIL_USER, Option.some HARDCODE_GMAIL_APP_PASSWORD)
  else
    (pyOrOpt (secrets "gmail_user") (env "GMAIL_USER"),
     pyOrOpt (secrets "gmail_app_password") (env "GMAIL_APP_PASSWORD"))

/-- The credentials guard at the top of `send_email` (source lines 561-566):
`True` exactly when the resolved user or password is falsy, in which case the
function raises before any message is sent. -/
def send_email_credentials_missing (secrets env : String → Option String) : Bool :=
  !truthyOpt (resolve_gmail_credentials secrets env).1 ||
  !truthyOpt (resolve_gmail_credentials secrets env).2

/-- Pair-wise credential resolution as the specification words it: the
hardcoded pair, then the secrets pair, then the environment pair, and `none`
when no single source yields a complete pair.
Modelled from the spec: "resolution order: hardcoded constant pair, then a
secrets store, then environment variables". -/
def resolveCredentialsPairSpec (secrets env : String → Option String) :
    Option (String × String) :=
  if HARDCODE_GMAIL_USER ≠ "" ∧ HARDCODE_GMAIL_APP_PASSWORD ≠ "" then
    Option.some (HARDCODE_GMAIL_USER, HARDCODE_GMAIL_APP_PASSWORD)
  else if truthyOpt (secrets "gmail_user") ∧ truthyOpt (secrets "gmail_app_password") then
    Option.some ((secrets "gmail_user").getD "", (secrets "gmail_app_password").getD "")
  else if truthyOpt (env "GMAIL_USER") ∧ truthyOpt (env "GMAIL_APP_PASSWORD") then
    Option.some ((env "GMAIL_USER").getD "", (env "GMAIL_APP_PASSWORD").getD "")
  else
    Option.none

/-- The `data` object of an inbound bridge event (source lines 606-623).
The `quote_date` field carries the result of parsing the `"YYYY-MM-DD"`
string: `none` models an absent or unparsable date (for which `parse_date`
returns today). -/
structure EventData where
  recipient : Option String := Option.none
  ext : Option String := Option.none
  quote_date : Option PyDate := Option.none
  email : Option String := Option.none
  plan1 : List RawRow := []
  plan2 : List RawRow := []
  discount1 : FloatRaw := FloatRaw.unparsable
  discount2 : FloatRaw := FloatRaw.unparsable

/-- An inbound event: an action plus payload. -/
structure Event where
  action : Option String := Option.none
  request_id : Option String := Option.none
  data : EventData := {}

/-- The outbound response dict of `handle_event`.  The base64 transport
encoding of the PDF bytes is abstracted away: `content` carries the bytes. -/
structure Response where
  id : String
  type : String
  filename : Option String := Option.none
  content : Option String := Option.none
  message : Option String := Option.none
  deriving DecidableEq, Repr

/-- The externally visible side effects of one `handle_event` call: an SMTP
delivery attempt, or a write of the artifact files into the save directory. -/
inductive Effect where
  | sendEmailEff (toAddr subject body pdfName : String)
  | saveArtifactsEff (dir stem : String)
  deriving DecidableEq, Repr

/-- `str(x or "")` on an optional string. -/
def optStr : Option String → String
  | Option.some s => s
  | Option.none => ""

/-- `event.get("request_id") or str(int(time.time() * 1000))`. -/
def requestIdOf (rid : Option String) (nowMs : Nat) : String :=
  match rid with
  | Option.some r => if r = "" then Nat.repr nowMs else r
  | Option.none => Nat.repr nowMs

/-- The mail subject line chosen in the `send_email` branch. -/
def subjectOf (recipient_raw : String) : String :=
  if recipient_raw ≠ "" then recipient_raw ++ " 귀하 비교견적서 검토 부탁드리겠습니다"
  else "비교견적서 검토 부탁드리겠습니다"

/-- `handle_event` (source lines 603-708).  `backends` and `transport` are the
outcomes of the external conversion backends and of the SMTP session inside
`send_email`; `nowMs` and `today` model the clock.  The returned effect list
records, in order, the delivery attempt and the artifact write. -/
def handle_event (backends : List (Except String String)) (transport : Except String Unit)
    (event : Event) (save_dir : String) (nowMs : Nat) (today : PyDate) :
    Response × List Effect :=
  let action := event.action
  let request_id := requestIdOf event.request_id nowMs
  let data := event.data
  let recipient_raw := pyStrip (optStr data.recipient)
  let recipient := recipient_raw
  let ext := pyStrip (optStr data.ext)
  let email := pyStrip (optStr data.email)
  let quote_date := data.quote_date.getD today
  let plan1_rows_norm := normalize_rows data.plan1
  let plan2_rows_norm := normalize_rows data.plan2
  let plan1_total := compute_totals plan1_rows_norm
  let plan2_total := compute_totals plan2_rows_norm
  let plan1_prepay := computePrepay plan1_total (parse_float data.discount1)
  let plan2_prepay := computePrepay plan2_total (parse_float data.discount2)
  let summary_text := build_summary_text plan1_prepay plan2_prepay
  let _xlsx_cells := fill_template recipient ext (Option.some quote_date) email
    plan1_rows_norm plan2_rows_norm plan1_total plan2_total plan1_prepay plan2_prepay
    summary_text
  let file_stem := build_filename recipient_raw (Option.some quote_date) today
  match convert_excel_to_pdf backends with
  | Except.error exc =>
    ({ id := request_id, type := "message",
       message := Option.some ("PDF 생성 실패: " ++ exc) }, [])
  | Except.ok pdf_bytes =>
    if action = Option.some "send_email" then
      if email = "" then
        ({ id := request_id, type := "message",
           message := Option.some "이메일 주소를 입력하세요." }, [])
      else
        let subject := subjectOf recipient_raw
        let body := "첨부된 PDF 견적서를 확인해 주세요."
        let sendEff := Effect.sendEmailEff email subject body (file_stem ++ ".pdf")
        match transport with
        | Except.error exc =>
          ({ id := request_id, type := "message",
             message := Option.some ("전송 실패: " ++ exc) }, [sendEff])
        | Except.ok _ =>
          ({ id := request_id, type := "pdf",
             filename := Option.some (file_stem ++ ".pdf"),
             content := Option.some pdf_bytes,
             message := Option.some "이메일 전송 완료" },
           [sendEff, Effect.saveArtifactsEff save_dir file_stem])
    else if action = Option.some "download_pdf" then
      ({ id := request_id, type := "pdf",
         filename := Option.some (file_stem ++ ".pdf"),
         content := Option.some pdf_bytes }, [])
    else if action = Option.some "preview_pdf" then
      ({ id := request_id, type := "preview",
         filename := Option.some (file_stem ++ ".pdf"),
         content := Option.some pdf_bytes }, [])
    else
      ({ id := request_id, type := "message",
         message := Option.some "알 수 없는 요청입니다." }, [])

/-! ## Helper lemmas about the row normalizer -/

/-- The accumulating loop of `normalize_rows` collects exactly the surviving
rows, in order, after the initial accumulator. -/
theorem foldl_normStep (rows : List RawRow) :
    ∀ acc : List NormRow, rows.foldl normStep acc = acc ++ survivors rows := by
  induction rows with
  | nil => intro acc; simp [survivors]
  | cons row rest ih =>
    intro acc
    simp only [List.foldl_cons, ih, survivors, List.map_cons, List.filter_cons]
    by_cases h : keepRow (normOfRow row) = true
    · simp [normStep, h, List.append_assoc]
    · simp only [Bool.not_eq_true] at h
      simp [normStep, h]

/-- `normalize_rows` in closed form: the surviving rows (or the single empty
placeholder), padded with empty rows and truncated to the template capacity. -/
theorem normalize_rows_eq (rows : List RawRow) :
    normalize_rows rows =
      ((if survivors rows = [] then [emptyNormRow] else survivors rows) ++
        List.replicate
          (MAX_TEMPLATE_ROWS -
            (if survivors rows = [] then [emptyNormRow] else survivors rows).length)
          emptyNormRow).take MAX_TEMPLATE_ROWS := by
  simp only [normalize_rows, foldl_normStep, List.nil_append]

/-- With at least `MAX_TEMPLATE_ROWS` survivors, `normalize_rows` is the first
`MAX_TEMPLATE_ROWS` survivors in order. -/
theorem normalize_rows_of_many (rows : List RawRow)
    (h : MAX_TEMPLATE_ROWS ≤ (survivors rows).length) :
    normalize_rows rows = (survivors rows).take MAX_TEMPLATE_ROWS := by
  have hne : survivors rows ≠ [] := by
    intro hnil
    rw [hnil] at h
    simp [MAX_TEMPLATE_ROWS] at h
  rw [normalize_rows_eq, if_neg hne, Nat.sub_eq_zero_of_le h, List.replicate_zero,
    List.append_nil]

/-- With fewer than `MAX_TEMPLATE_ROWS` survivors (but at least one),
`normalize_rows` is the survivors followed by the padding. -/
theorem normalize_rows_of_few (rows : List RawRow) (hne : survivors rows ≠ [])
    (h : (survivors rows).length ≤ MAX_TEMPLATE_ROWS) :
    normalize_rows rows =
      survivors rows ++
        List.replicate (MAX_TEMPLATE_ROWS - (survivors rows).length) emptyNormRow := by
  rw [normalize_rows_eq, if_neg hne]
  apply List.take_of_length_le
  simp only [List.length_append, List.length_replicate]
  omega

/-- `normalize_rows` when nothing survives: the padded single placeholder,
i.e. `MAX_TEMPLATE_ROWS` empty rows. -/
theorem normalize_rows_of_none (rows : List RawRow) (hnil : survivors rows = []) :
    normalize_rows rows = List.replicate MAX_TEMPLATE_ROWS emptyNormRow := by
  rw [normalize_rows_eq, if_pos hnil]
  have : ([emptyNormRow] ++
      List.replicate (MAX_TEMPLATE_ROWS - ([emptyNormRow] : List NormRow).length)
        emptyNormRow) = List.replicate MAX_TEMPLATE_ROWS emptyNormRow := by
    simp [MAX_TEMPLATE_ROWS, List.replicate_succ]
  rw [this]
  apply List.take_of_length_le
  simp

/-- Every element of a `normalize_rows` result is the empty placeholder or the
normalization of some input row. -/
theorem mem_normalize_rows {rows : List RawRow} {r : NormRow}
    (h : r ∈ normalize_rows rows) :
    r = emptyNormRow ∨ ∃ raw, raw ∈ rows ∧ r = normOfRow raw := by
  rw [normalize_rows_eq] at h
  have h2 := (List.take_sublist _ _).subset h
  rcases List.mem_append.1 h2 with h3 | h3
  · by_cases hnil : survivors rows = []
    · rw [if_pos hnil] at h3
      simp only [List.mem_singleton] at h3
      exact Or.inl h3
    · rw [if_neg hnil] at h3
      have h4 := List.mem_of_mem_filter h3
      rcases List.mem_map.1 h4 with ⟨raw, hraw, heq⟩
      exact Or.inr ⟨raw, hraw, heq.symm⟩
  · exact Or.inl (List.eq_of_mem_replicate h3)

/-- Every survivor satisfies the keep condition. -/
theorem keep_of_mem_survivors {rows : List RawRow} {r : NormRow}
    (h : r ∈ survivors rows) : keepRow r = true :=
  List.of_mem_filter h

/-- Filtering the survivors again changes nothing. -/
theorem filter_survivors (rows : List RawRow) :
    (survivors rows).filter keepRow = survivors rows :=
  List.filter_eq_self.2 fun _ ha => keep_of_mem_survivors ha

/-! ## Helper lemmas about `pyStrip` -/

/-- The head of `dropWhile p l` does not satisfy `p`. -/
theorem head?_dropWhile_false {α : Type} (p : α → Bool) :
    ∀ (l : List α) (a : α), (l.dropWhile p).head? = Option.some a → p a = false := by
  intro l
  induction l with
  | nil => intro a h; simp at h
  | cons b t ih =>
    intro a h
    rw [List.dropWhile_cons] at h
    by_cases hpb : p b = true
    · rw [if_pos hpb] at h
      exact ih a h
    · simp only [Bool.not_eq_true] at hpb
      rw [if_neg (by simp [hpb])] at h
      simp only [List.head?_cons, Option.some.injEq] at h
      rw [← h]
      exact hpb

/-- `dropWhile` is the identity when the head already fails the predicate. -/
theorem dropWhile_eq_self_of_head {α : Type} (p : α → Bool) (l : List α)
    (h : ∀ a, l.head? = Option.some a → p a = false) : l.dropWhile p = l := by
  cases l with
  | nil => rfl
  | cons b t =>
    have hb := h b rfl
    rw [List.dropWhile_cons, if_neg (by simp [hb])]

/-- `dropWhile` is the identity on a list none of whose elements satisfy the
predicate. -/
theorem dropWhile_eq_self_of_all {α : Type} (p : α → Bool) (l : List α)
    (h : ∀ a ∈ l, p a = false) : l.dropWhile p = l := by
  apply dropWhile_eq_self_of_head
  intro a ha
  exact h a (by cases l <;> simp_all)

/-- `dropWhile` keeps the last element when its result is non-empty. -/
theorem getLast?_dropWhile {α : Type} (p : α → Bool) (l : List α) :
    l.dropWhile p = [] ∨ (l.dropWhile p).getLast? = l.getLast? := by
  induction l with
  | nil => exact Or.inl rfl
  | cons b t ih =>
    rw [List.dropWhile_cons]
    by_cases hpb : p b = true
    · rw [if_pos hpb]
      rcases ih with h | h
      · exact Or.inl h
      · cases t with
        | nil => exact Or.inl rfl
        | cons c u =>
          right
          rw [h, List.getLast?_cons_cons]
    · rw [if_neg (by simp_all)]
      exact Or.inr rfl

/-- Both-ends whitespace trimming on character lists, as used by `pyStrip`. -/
def stripChars (p : Char → Bool) (l : List Char) : List Char :=
  ((l.dropWhile p).reverse.dropWhile p).reverse

/-- `stripChars` is idempotent. -/
theorem stripChars_idem (p : Char → Bool) (l : List Char) :
    stripChars p (stripChars p l) = stripChars p l := by
  unfold stripChars
  set u := l.dropWhile p with hu
  set v := u.reverse.dropWhile p with hv
  have hfirst : ∀ a, v.head? = Option.some a → p a = false :=
    fun a ha => head?_dropWhile_false p u.reverse a ha
  have hlast : ∀ a, v.reverse.head? = Option.some a → p a = false := by
    intro a ha
    rw [List.head?_reverse] at ha
    rcases getLast?_dropWhile p u.reverse with hnil | hca
    · rw [← hv] at hnil
      rw [hnil] at ha
      simp at ha
    · rw [← hv] at hca
      rw [hca, List.getLast?_reverse] at ha
      exact head?_dropWhile_false p l a (by rw [← hu]; exact ha)
  rw [dropWhile_eq_self_of_head p v.reverse hlast, List.reverse_reverse,
    dropWhile_eq_self_of_head p v hfirst]

/-- `pyStrip` written through `stripChars`. -/
theorem pyStrip_eq (s : String) :
    pyStrip s = String.mk (stripChars Char.isWhitespace s.toList) := rfl

/-- Python strip is idempotent. -/
theorem pyStrip_idem (s : String) : pyStrip (pyStrip s) = pyStrip s := by
  calc pyStrip (pyStrip s)
      = String.mk (stripChars Char.isWhitespace
          (stripChars Char.isWhitespace s.toList)) := rfl
    _ = String.mk (stripChars Char.isWhitespace s.toList) := by rw [stripChars_idem]
    _ = pyStrip s := rfl

/-- `pyStrip` fixes any string with no whitespace characters. -/
theorem pyStrip_of_no_ws (s : String)
    (h : ∀ c ∈ s.toList, c.isWhitespace = false) : pyStrip s = s := by
  rw [pyStrip_eq]
  unfold stripChars
  rw [dropWhile_eq_self_of_all _ _ h]
  rw [dropWhile_eq_self_of_all _ _ (fun c hc => h c (List.mem_reverse.1 hc))]
  rw [List.reverse_reverse]
  cases s
  rfl

/-! ## Decimal representations contain no whitespace -/

theorem digitChar_not_ws (n : Nat) : (Nat.digitChar n).isWhitespace = false := by
  unfold Nat.digitChar
  by_cases h0 : n = 0
  · rw [if_pos h0]; decide
  rw [if_neg h0]
  by_cases h1 : n = 1
  · rw [if_pos h1]; decide
  rw [if_neg h1]
  by_cases h2 : n = 2
  · rw [if_pos h2]; decide
  rw [if_neg h2]
  by_cases h3 : n = 3
  · rw [if_pos h3]; decide
  rw [if_neg h3]
  by_cases h4 : n = 4
  · rw [if_pos h4]; decide
  rw [if_neg h4]
  by_cases h5 : n = 5
  · rw [if_pos h5]; decide
  rw [if_neg h5]
  by_cases h6 : n = 6
  · rw [if_pos h6]; decide
  rw [if_neg h6]
  by_cases h7 : n = 7
  · rw [if_pos h7]; decide
  rw [if_neg h7]
  by_cases h8 : n = 8
  · rw [if_pos h8]; decide
  rw [if_neg h8]
  by_cases h9 : n = 9
  · rw [if_pos h9]; decide
  rw [if_neg h9]
  by_cases ha : n = 10
  · rw [if_pos ha]; decide
  rw [if_neg ha]
  by_cases hb : n = 11
  · rw [if_pos hb]; decide
  rw [if_neg hb]
  by_cases hc : n = 12
  · rw [if_pos hc]; decide
  rw [if_neg hc]
  by_cases hd : n = 13
  · rw [if_pos hd]; decide
  rw [if_neg hd]
  by_cases he : n = 14
  · rw [if_pos he]; decide
  rw [if_neg he]
  by_cases hf : n = 15
  · rw [if_pos hf]; decide
  rw [if_neg hf]
  decide

theorem toDigitsCore_not_ws :
    ∀ (fuel n : Nat) (acc : List Char), (∀ c ∈ acc, c.isWhitespace = false) →
      ∀ c ∈ Nat.toDigitsCore 10 fuel n acc, c.isWhitespace = false := by
  intro fuel
  induction fuel with
  | zero => intro n acc hacc c hc; exact hacc c hc
  | succ fuel ih =>
    intro n acc hacc c hc
    simp only [Nat.toDigitsCore] at hc
    by_cases h : n / 10 = 0
    · rw [if_pos h] at hc
      rcases List.mem_cons.1 hc with heq | hmem
      · rw [heq]; exact digitChar_not_ws _
      · exact hacc c hmem
    · rw [if_neg h] at hc
      refine ih (n / 10) (Nat.digitChar (n % 10) :: acc) ?_ c hc
      intro x hx
      rcases List.mem_cons.1 hx with heq | hx2
      · rw [heq]; exact digitChar_not_ws _
      · exact hacc x hx2

theorem natRepr_not_ws (n : Nat) : ∀ c ∈ (Nat.repr n).toList, c.isWhitespace = false := by
  intro c hc
  have hrepr : (Nat.repr n).toList = Nat.toDigitsCore 10 (n + 1) n [] := rfl
  rw [hrepr] at hc
  exact toDigitsCore_not_ws (n + 1) n [] (by intro x hx; simp at hx) c hc

theorem intRepr_not_ws (n : Int) : ∀ c ∈ (Int.repr n).toList, c.isWhitespace = false := by
  intro c hc
  cases n with
  | ofNat m => exact natRepr_not_ws m c hc
  | negSucc m =>
    have hrepr : (Int.repr (Int.negSucc m)).toList = '-' :: (Nat.repr (m + 1)).toList := rfl
    rw [hrepr] at hc
    rcases List.mem_cons.1 hc with heq | h2
    · rw [heq]; decide
    · exact natRepr_not_ws (m + 1) c h2

theorem pyStrip_intRepr (n : Int) : pyStrip (Int.repr n) = Int.repr n :=
  pyStrip_of_no_ws _ (intRepr_not_ws n)

/-- The model string produced by the normalizer is already stripped. -/
theorem pyStrip_modelOf (v : RawVal) : pyStrip (modelOf v) = modelOf v := by
  cases v with
  | pynone => rfl
  | num n =>
    by_cases h : n = 0
    · simp [modelOf, h]
      rfl
    · simp only [modelOf, if_neg h]
      exact pyStrip_intRepr n
  | str s => exact pyStrip_idem s

/-! ## Re-normalization helpers -/

/-- A normalized row dict, seen again as a raw input row (string model,
integer price and qty). -/
def toRaw (r : NormRow) : RawRow :=
  ⟨RawVal.str r.model, RawVal.num r.price, RawVal.num r.qty⟩

theorem normOfRow_toRaw (r : NormRow) :
    normOfRow (toRaw r) = ⟨pyStrip r.model, r.price, r.qty⟩ := rfl

theorem normOfRow_toRaw_of_fixed {r : NormRow} (h : pyStrip r.model = r.model) :
    normOfRow (toRaw r) = r := by
  rw [normOfRow_toRaw, h]

theorem survivors_append (a b : List RawRow) :
    survivors (a ++ b) = survivors a ++ survivors b := by
  simp [survivors]

theorem survivors_map_toRaw (l : List NormRow)
    (h : ∀ r ∈ l, pyStrip r.model = r.model) :
    survivors (l.map toRaw) = l.filter keepRow := by
  unfold survivors
  rw [List.map_map]
  have hmap : List.map (normOfRow ∘ toRaw) l = List.map id l :=
    List.map_congr_left (fun r hr => normOfRow_toRaw_of_fixed (h r hr))
  rw [hmap, List.map_id]

theorem strip_fixed_of_mem_survivors {rows : List RawRow} {r : NormRow}
    (h : r ∈ survivors rows) : pyStrip r.model = r.model := by
  have h2 := List.mem_of_mem_filter h
  rcases List.mem_map.1 h2 with ⟨raw, _, heq⟩
  rw [← heq]
  exact pyStrip_modelOf raw.model

theorem strip_fixed_of_mem_normalize {rows : List RawRow} {r : NormRow}
    (h : r ∈ normalize_rows rows) : pyStrip r.model = r.model := by
  rcases mem_normalize_rows h with heq | ⟨raw, _, heq⟩
  · rw [heq]; rfl
  · rw [heq]; exact pyStrip_modelOf raw.model

/-! ## Non-negativity of parsed numbers -/

/-- A raw value whose numeric form (if any) is non-negative.  String and
absent inputs always satisfy this; only a negative Python number violates it. -/
def rawNonNeg : RawVal → Bool
  | RawVal.num n => decide (0 ≤ n)
  | _ => true

theorem parse_number_nonneg (v : RawVal) (h : rawNonNeg v = true) :
    0 ≤ parse_number v := by
  cases v with
  | pynone => simp [parse_number]
  | num n => simpa [rawNonNeg] using h
  | str s =>
    simp only [parse_number]
    split
    · exact le_refl 0
    · exact Int.natCast_nonneg _

/-! ## Claim C1 -/

/-- C1 (counterexample): the claim "every element's price and qty are
non-negative" fails as stated: a raw row whose price is the Python number
`-1` survives normalization with price `-1`, because `parse_number` passes
numeric input through `int(...)` without stripping. -/
theorem normalize_rows_negative_passthrough_cex :
    ∃ r, r ∈ normalize_rows [⟨RawVal.str "A", RawVal.num (-1), RawVal.num 1⟩] ∧
      r.price < 0 := by
  refine ⟨⟨"A", -1, 1⟩, ?_, by decide⟩
  decide

/-- C1 (amended): for every raw row sequence the output of `normalize_rows`
has exactly 9 elements; and provided no raw row carries a negative numeric
price or qty value (string, absent and non-negative numeric inputs all
qualify), every element's price and qty are non-negative. -/
theorem normalize_rows_card_and_nonneg (rows : List RawRow) :
    (normalize_rows rows).length = MAX_TEMPLATE_ROWS ∧
    ((∀ raw ∈ rows, rawNonNeg raw.price = true ∧ rawNonNeg raw.qty = true) →
      ∀ r ∈ normalize_rows rows, 0 ≤ r.price ∧ 0 ≤ r.qty) := by
  constructor
  · rw [normalize_rows_eq]
    simp only [List.length_take, List.length_append, List.length_replicate]
    omega
  · intro h r hr
    rcases mem_normalize_rows hr with heq | ⟨raw, hraw, heq⟩
    · rw [heq]
      exact ⟨le_refl 0, le_refl 0⟩
    · rw [heq]
      exact ⟨parse_number_nonneg _ (h raw hraw).1, parse_number_nonneg _ (h raw hraw).2⟩

theorem normalize_rows_card_and_nonneg_witness :
    (∀ raw ∈ [(⟨RawVal.str " A ", RawVal.str "1,200", RawVal.pynone⟩ : RawRow)],
      rawNonNeg raw.price = true ∧ rawNonNeg raw.qty = true) ∧
    (normalize_rows [(⟨RawVal.str " A ", RawVal.str "1,200", RawVal.pynone⟩ : RawRow)]).length
      = MAX_TEMPLATE_ROWS ∧
    (∀ r ∈ normalize_rows [(⟨RawVal.str " A ", RawVal.str "1,200", RawVal.pynone⟩ : RawRow)],
      0 ≤ r.price ∧ 0 ≤ r.qty) :=
  ⟨by decide,
   (normalize_rows_card_and_nonneg _).1,
   (normalize_rows_card_and_nonneg _).2 (by decide)⟩

/-! ## Claim C2 -/

/-- C2: a row is kept iff its trimmed model is non-empty or its parsed price
or qty is nonzero (`survivors` is by definition that filter); when nothing
survives the result is the padded single empty placeholder; and with at least
9 survivors the result is the first 9 survivors in their original order. -/
theorem normalize_rows_keep_pad_truncate (rows : List RawRow) :
    (normalize_rows rows =
      ((if survivors rows = [] then [emptyNormRow] else survivors rows) ++
        List.replicate (MAX_TEMPLATE_ROWS -
          (if survivors rows = [] then [emptyNormRow] else survivors rows).length)
          emptyNormRow).take MAX_TEMPLATE_ROWS) ∧
    (survivors rows = [] →
      normalize_rows rows = List.replicate MAX_TEMPLATE_ROWS emptyNormRow) ∧
    (MAX_TEMPLATE_ROWS ≤ (survivors rows).length →
      normalize_rows rows = (survivors rows).take MAX_TEMPLATE_ROWS) :=
  ⟨normalize_rows_eq rows, normalize_rows_of_none rows, normalize_rows_of_many rows⟩

/-- Twelve non-empty raw rows, as in the truncation scenario. -/
def demoRows12 : List RawRow :=
  [⟨RawVal.str "m01", RawVal.num 1, RawVal.num 1⟩,
   ⟨RawVal.str "m02", RawVal.num 2, RawVal.num 1⟩,
   ⟨RawVal.str "m03", RawVal.num 3, RawVal.num 1⟩,
   ⟨RawVal.str "m04", RawVal.num 4, RawVal.num 1⟩,
   ⟨RawVal.str "m05", RawVal.num 5, RawVal.num 1⟩,
   ⟨RawVal.str "m06", RawVal.num 6, RawVal.num 1⟩,
   ⟨RawVal.str "m07", RawVal.num 7, RawVal.num 1⟩,
   ⟨RawVal.str "m08", RawVal.num 8, RawVal.num 1⟩,
   ⟨RawVal.str "m09", RawVal.num 9, RawVal.num 1⟩,
   ⟨RawVal.str "m10", RawVal.num 10, RawVal.num 1⟩,
   ⟨RawVal.str "m11", RawVal.num 11, RawVal.num 1⟩,
   ⟨RawVal.str "m12", RawVal.num 12, RawVal.num 1⟩]

theorem normalize_rows_keep_pad_truncate_witness :
    MAX_TEMPLATE_ROWS ≤ (survivors demoRows12).length ∧
    normalize_rows demoRows12 = (survivors demoRows12).take MAX_TEMPLATE_ROWS ∧
    survivors [(⟨RawVal.str " ", RawVal.pynone, RawVal.str "0"⟩ : RawRow)] = [] ∧
    normalize_rows [(⟨RawVal.str " ", RawVal.pynone, RawVal.str "0"⟩ : RawRow)] =
      List.replicate MAX_TEMPLATE_ROWS emptyNormRow :=
  ⟨by decide,
   (normalize_rows_keep_pad_truncate demoRows12).2.2 (by decide),
   by decide,
   (normalize_rows_keep_pad_truncate _).2.1 (by decide)⟩

/-! ## Claim C10 -/

/-- C10: `normalize_rows` is idempotent: re-normalizing its own output (seen
again as raw rows) returns the same 9 rows. -/
theorem normalize_rows_idempotent (rows : List RawRow) :
    normalize_rows ((normalize_rows rows).map toRaw) = normalize_rows rows := by
  by_cases hnil : survivors rows = []
  · rw [normalize_rows_of_none rows hnil]
    have hsurv : survivors ((List.replicate MAX_TEMPLATE_ROWS emptyNormRow).map toRaw) = [] := by
      rw [survivors_map_toRaw _ (fun r hr => by rw [List.eq_of_mem_replicate hr]; rfl)]
      exact List.filter_replicate_of_neg (by decide)
    rw [normalize_rows_of_none _ hsurv]
  · by_cases hlen : MAX_TEMPLATE_ROWS ≤ (survivors rows).length
    · rw [normalize_rows_of_many rows hlen]
      have hsurv : survivors (((survivors rows).take MAX_TEMPLATE_ROWS).map toRaw) =
          (survivors rows).take MAX_TEMPLATE_ROWS := by
        rw [survivors_map_toRaw _
          (fun r hr => strip_fixed_of_mem_survivors ((List.take_sublist _ _).subset hr))]
        exact List.filter_eq_self.2
          (fun a ha => keep_of_mem_survivors ((List.take_sublist _ _).subset ha))
      have hlen2 : MAX_TEMPLATE_ROWS ≤
          (survivors (((survivors rows).take MAX_TEMPLATE_ROWS).map toRaw)).length := by
        rw [hsurv, List.length_take]
        omega
      rw [normalize_rows_of_many _ hlen2, hsurv, List.take_take, min_self]
    · have hle : (survivors rows).length ≤ MAX_TEMPLATE_ROWS := by omega
      rw [normalize_rows_of_few rows hnil hle]
      have hsurv : survivors ((survivors rows ++
          List.replicate (MAX_TEMPLATE_ROWS - (survivors rows).length) emptyNormRow).map
            toRaw) = survivors rows := by
        rw [List.map_append, survivors_append]
        rw [survivors_map_toRaw _ (fun r hr => strip_fixed_of_mem_survivors hr),
          filter_survivors]
        rw [survivors_map_toRaw _ (fun r hr => by rw [List.eq_of_mem_replicate hr]; rfl)]
        rw [List.filter_replicate_of_neg (by decide), List.append_nil]
      rw [normalize_rows_of_few _ (by rw [hsurv]; exact hnil) (by rw [hsurv]; exact hle),
        hsurv]

/-! ## Claim C3 -/

/-- C3: the prepay total is `round(total * (1 - max(discountRate, 0)))` with
unparsable discount input treated as `0.0`; at discount `0.0` the prepay
equals the total and at discount `1.0` it is `0`. -/
theorem computePrepay_spec :
    (parse_float FloatRaw.unparsable = 0) ∧
    (∀ (t : Int) (fr : FloatRaw),
      computePrepay t (parse_float fr) =
        pythonRound ((t : ℚ) * (1 - max (parse_float fr) 0))) ∧
    (∀ t : Int, computePrepay t 0 = t) ∧
    (∀ t : Int, computePrepay t 1 = 0) := by
  refine ⟨rfl, fun t fr => rfl, ?_, ?_⟩
  · intro t
    simp only [computePrepay, pythonRound, max_self, sub_zero, mul_one,
      Int.floor_intCast, sub_self]
    norm_num
  · intro t
    have hmax : max (1 : ℚ) 0 = 1 := by norm_num
    simp only [computePrepay, pythonRound, hmax, sub_self, mul_zero, Int.floor_zero]
    norm_num

/-! ## Claim C4 -/

/-- C4: when the second prepay is smaller, the summary reports annual savings
`(a-b)*12` and monthly savings `a-b` (and the reversed call reports the same
difference as a monthly extra cost); when it is larger, a monthly extra cost;
when equal, the "difference 0" message.  All amounts are formatted with
thousands separators and the currency suffix by `format_won`. -/
theorem build_summary_text_spec (a b : Int) :
    (b < a →
      build_summary_text a b =
        "연 " ++ format_won ((a - b) * 12) ++ " 할인 / 월 " ++ format_won (a - b) ++ " 할인" ∧
      build_summary_text b a = "월 " ++ format_won (a - b) ++ " 추가") ∧
    (a < b → build_summary_text a b = "월 " ++ format_won (b - a) ++ " 추가") ∧
    (a = b → build_summary_text a b = "차이 0원") := by
  refine ⟨?_, ?_, ?_⟩
  · intro h
    constructor
    · unfold build_summary_text
      rw [if_pos h]
    · unfold build_summary_text
      rw [if_neg (by omega), if_pos h]
  · intro h
    unfold build_summary_text
    rw [if_neg (by omega), if_pos h]
  · intro h
    unfold build_summary_text
    rw [if_neg (by omega), if_neg (by omega)]

theorem build_summary_text_spec_witness :
    ((80000 : Int) < 90000) ∧
    build_summary_text 90000 80000 =
      "연 " ++ format_won ((90000 - 80000) * 12) ++ " 할인 / 월 " ++
        format_won (90000 - 80000) ++ " 할인" ∧
    build_summary_text 80000 90000 = "월 " ++ format_won (90000 - 80000) ++ " 추가" :=
  ⟨by decide,
   ((build_summary_text_spec 90000 80000).1 (by decide)).1,
   ((build_summary_text_spec 90000 80000).1 (by decide)).2⟩

/-! ## Cell lookup lemmas for the document filler -/

theorem cell_ne_of_col {c1 c2 : String} {r1 r2 : Nat} (h : c1 ≠ c2) :
    ((c1, r1) : Cell) ≠ (c2, r2) :=
  fun hh => h (congrArg Prod.fst hh)

theorem cell_ne_of_row {c1 c2 : String} {r1 r2 : Nat} (h : r1 ≠ r2) :
    ((c1, r1) : Cell) ≠ (c2, r2) :=
  fun hh => h (congrArg Prod.snd hh)

theorem cellLookup_append_none {k : Cell} {l1 l2 : List (Cell × CellValue)}
    (h : cellLookup k l1 = Option.none) :
    cellLookup k (l1 ++ l2) = cellLookup k l2 := by
  induction l1 with
  | nil => rfl
  | cons p t ih =>
    obtain ⟨k2, v⟩ := p
    simp only [cellLookup, List.cons_append] at *
    by_cases hk : k2 = k
    · rw [if_pos hk] at h
      exact absurd h (by simp)
    · rw [if_neg hk] at h ⊢
      exact ih h

theorem cellLookup_append_some {k : Cell} {l1 l2 : List (Cell × CellValue)}
    {v : CellValue} (h : cellLookup k l1 = Option.some v) :
    cellLookup k (l1 ++ l2) = Option.some v := by
  induction l1 with
  | nil => simp [cellLookup] at h
  | cons p t ih =>
    obtain ⟨k2, w⟩ := p
    simp only [cellLookup, List.cons_append] at *
    by_cases hk : k2 = k
    · rw [if_pos hk] at h ⊢
      exact h
    · rw [if_neg hk] at h ⊢
      exact ih h

/-- A column not used by a plan block is never found in that block. -/
theorem cellLookup_planCells_none (c mc pc qc tc : String)
    (hm : mc ≠ c) (hp : pc ≠ c) (hq : qc ≠ c) (ht : tc ≠ c) :
    ∀ (rows : List NormRow) (e r : Nat),
      cellLookup (c, r) (planCells mc pc qc tc e rows) = Option.none := by
  intro rows
  induction rows with
  | nil => intro e r; rfl
  | cons row rest ih =>
    intro e r
    simp only [planCells, cellLookup]
    rw [if_neg (cell_ne_of_col hm), if_neg (cell_ne_of_col hp),
      if_neg (cell_ne_of_col hq), if_neg (cell_ne_of_col ht)]
    exact ih (e + 1) r

/-- Reading the price cell of the `i`-th row of a plan block. -/
theorem cellLookup_planCells_price (mc pc qc tc : String) (hmp : mc ≠ pc) :
    ∀ (rows : List NormRow) (e i : Nat) (h : i < rows.length),
      cellLookup (pc, e + i) (planCells mc pc qc tc e rows) =
        Option.some (numOrBlank (rows.get ⟨i, h⟩).price) := by
  intro rows
  induction rows with
  | nil => intro e i h; exact absurd h (by simp)
  | cons row rest ih =>
    intro e i h
    cases i with
    | zero =>
      simp only [Nat.add_zero, planCells, cellLookup]
      rw [if_neg (cell_ne_of_col hmp), if_pos trivial]
      rfl
    | succ i =>
      simp only [planCells, cellLookup]
      rw [if_neg (cell_ne_of_row (by omega)), if_neg (cell_ne_of_row (by omega)),
        if_neg (cell_ne_of_row (by omega)), if_neg (cell_ne_of_row (by omega))]
      have harith : e + (i + 1) = (e + 1) + i := by omega
      rw [harith]
      exact ih (e + 1) i (by simpa using h)

/-- Reading the quantity cell of the `i`-th row of a plan block. -/
theorem cellLookup_planCells_qty (mc pc qc tc : String) (hmq : mc ≠ qc) (hpq : pc ≠ qc) :
    ∀ (rows : List NormRow) (e i : Nat) (h : i < rows.length),
      cellLookup (qc, e + i) (planCells mc pc qc tc e rows) =
        Option.some (numOrBlank (rows.get ⟨i, h⟩).qty) := by
  intro rows
  induction rows with
  | nil => intro e i h; exact absurd h (by simp)
  | cons row rest ih =>
    intro e i h
    cases i with
    | zero =>
      simp only [Nat.add_zero, planCells, cellLookup]
      rw [if_neg (cell_ne_of_col hmq), if_neg (cell_ne_of_col hpq), if_pos trivial]
      rfl
    | succ i =>
      simp only [planCells, cellLookup]
      rw [if_neg (cell_ne_of_row (by omega)), if_neg (cell_ne_of_row (by omega)),
        if_neg (cell_ne_of_row (by omega)), if_neg (cell_ne_of_row (by omega))]
      have harith : e + (i + 1) = (e + 1) + i := by omega
      rw [harith]
      exact ih (e + 1) i (by simpa using h)

/-- Reading the line-total cell of the `i`-th row of a plan block. -/
theorem cellLookup_planCells_total (mc pc qc tc : String)
    (hmt : mc ≠ tc) (hpt : pc ≠ tc) (hqt : qc ≠ tc) :
    ∀ (rows : List NormRow) (e i : Nat) (h : i < rows.length),
      cellLookup (tc, e + i) (planCells mc pc qc tc e rows) =
        Option.some (numOrBlank ((rows.get ⟨i, h⟩).price * (rows.get ⟨i, h⟩).qty)) := by
  intro rows
  induction rows with
  | nil => intro e i h; exact absurd h (by simp)
  | cons row rest ih =>
    intro e i h
    cases i with
    | zero =>
      simp only [Nat.add_zero, planCells, cellLookup]
      rw [if_neg (cell_ne_of_col hmt), if_neg (cell_ne_of_col hpt),
        if_neg (cell_ne_of_col hqt), if_pos trivial]
      rfl
    | succ i =>
      simp only [planCells, cellLookup]
      rw [if_neg (cell_ne_of_row (by omega)), if_neg (cell_ne_of_row (by omega)),
        if_neg (cell_ne_of_row (by omega)), if_neg (cell_ne_of_row (by omega))]
      have harith : e + (i + 1) = (e + 1) + i := by omega
      rw [harith]
      exact ih (e + 1) i (by simpa using h)

/-- The header block writes no cell in a row at or beyond the first plan row. -/
theorem cellLookup_headerCells_none (c : String) (r : Nat) (hr : 15 ≤ r)
    (recipient ext : String) (qd : Option PyDate) (email : String)
    (t1 t2 q1 q2 : Int) (summary : String) :
    cellLookup (c, r) (headerCells recipient ext qd email t1 t2 q1 q2 summary) =
      Option.none := by
  simp only [headerCells, cellLookup]
  rw [if_neg (cell_ne_of_row (by omega)), if_neg (cell_ne_of_row (by omega)),
    if_neg (cell_ne_of_row (by omega)), if_neg (cell_ne_of_row (by omega)),
    if_neg (cell_ne_of_row (by omega)), if_neg (cell_ne_of_row (by omega)),
    if_neg (cell_ne_of_row (by omega)), if_neg (cell_ne_of_row (by omega)),
    if_neg (cell_ne_of_row (by omega))]

/-! ## Claim C5 -/

/-- C5: in the document filler's per-row cells of both plans, a zero price,
quantity or line total is written as the blank string, and a nonzero value as
the number itself (reading the named cells of the fill output back). -/
theorem fill_template_zero_blank (recipient ext : String) (qd : Option PyDate)
    (email : String) (p1 p2 : List NormRow) (t1 t2 q1 q2 : Int) (summary : String) :
    (∀ (i : Nat) (h1 : i < p1.length),
      cellLookup ("E", 15 + i)
          (fill_template recipient ext qd email p1 p2 t1 t2 q1 q2 summary) =
        Option.some (if (p1.get ⟨i, h1⟩).price = 0 then CellValue.str ""
          else CellValue.int (p1.get ⟨i, h1⟩).price) ∧
      cellLookup ("G", 15 + i)
          (fill_template recipient ext qd email p1 p2 t1 t2 q1 q2 summary) =
        Option.some (if (p1.get ⟨i, h1⟩).qty = 0 then CellValue.str ""
          else CellValue.int (p1.get ⟨i, h1⟩).qty) ∧
      cellLookup ("H", 15 + i)
          (fill_template recipient ext qd email p1 p2 t1 t2 q1 q2 summary) =
        Option.some (if (p1.get ⟨i, h1⟩).price * (p1.get ⟨i, h1⟩).qty = 0
          then CellValue.str ""
          else CellValue.int ((p1.get ⟨i, h1⟩).price * (p1.get ⟨i, h1⟩).qty))) ∧
    (∀ (j : Nat) (h2 : j < p2.length),
      cellLookup ("N", 15 + j)
          (fill_template recipient ext qd email p1 p2 t1 t2 q1 q2 summary) =
        Option.some (if (p2.get ⟨j, h2⟩).price = 0 then CellValue.str ""
          else CellValue.int (p2.get ⟨j, h2⟩).price) ∧
      cellLookup ("P", 15 + j)
          (fill_template recipient ext qd email p1 p2 t1 t2 q1 q2 summary) =
        Option.some (if (p2.get ⟨j, h2⟩).qty = 0 then CellValue.str ""
          else CellValue.int (p2.get ⟨j, h2⟩).qty) ∧
      cellLookup ("Q", 15 + j)
          (fill_template recipient ext qd email p1 p2 t1 t2 q1 q2 summary) =
        Option.some (if (p2.get ⟨j, h2⟩).price * (p2.get ⟨j, h2⟩).qty = 0
          then CellValue.str ""
          else CellValue.int ((p2.get ⟨j, h2⟩).price * (p2.get ⟨j, h2⟩).qty))) := by
  have hplan1 : ∀ (c : String) (i : Nat) (v : CellValue),
      cellLookup (c, 15 + i) (planCells "B" "E" "G" "H" 15 p1) = Option.some v →
      cellLookup (c, 15 + i)
        (fill_template recipient ext qd email p1 p2 t1 t2 q1 q2 summary) =
        Option.some v := by
    intro c i v hv
    unfold fill_template
    rw [List.append_assoc]
    rw [cellLookup_append_none (cellLookup_headerCells_none c (15 + i) (by omega) _ _ _ _ _ _ _ _ _)]
    exact cellLookup_append_some hv
  have hplan2 : ∀ (c : String) (j : Nat) (v : CellValue),
      ("B" : String) ≠ c → ("E" : String) ≠ c → ("G" : String) ≠ c → ("H" : String) ≠ c →
      cellLookup (c, 15 + j) (planCells "K" "N" "P" "Q" 15 p2) = Option.some v →
      cellLookup (c, 15 + j)
        (fill_template recipient ext qd email p1 p2 t1 t2 q1 q2 summary) =
        Option.some v := by
    intro c j v hB hE hG hH hv
    unfold fill_template
    rw [List.append_assoc]
    rw [cellLookup_append_none (cellLookup_headerCells_none c (15 + j) (by omega) _ _ _ _ _ _ _ _ _)]
    rw [cellLookup_append_none (cellLookup_planCells_none c "B" "E" "G" "H" hB hE hG hH p1 15 (15 + j))]
    exact hv
  refine ⟨?_, ?_⟩
  · intro i h1
    refine ⟨?_, ?_, ?_⟩
    · exact hplan1 "E" i _
        (cellLookup_planCells_price "B" "E" "G" "H" (by decide) p1 15 i h1)
    · exact hplan1 "G" i _
        (cellLookup_planCells_qty "B" "E" "G" "H" (by decide) (by decide) p1 15 i h1)
    · exact hplan1 "H" i _
        (cellLookup_planCells_total "B" "E" "G" "H" (by decide) (by decide) (by decide)
          p1 15 i h1)
  · intro j h2
    refine ⟨?_, ?_, ?_⟩
    · exact hplan2 "N" j _ (by decide) (by decide) (by decide) (by decide)
        (cellLookup_planCells_price "K" "N" "P" "Q" (by decide) p2 15 j h2)
    · exact hplan2 "P" j _ (by decide) (by decide) (by decide) (by decide)
        (cellLookup_planCells_qty "K" "N" "P" "Q" (by decide) (by decide) p2 15 j h2)
    · exact hplan2 "Q" j _ (by decide) (by decide) (by decide) (by decide)
        (cellLookup_planCells_total "K" "N" "P" "Q" (by decide) (by decide) (by decide)
          p2 15 j h2)

theorem fill_template_zero_blank_witness :
    ((0 : Nat) < ([(⟨"A", 10000, 2⟩ : NormRow)]).length) ∧
    cellLookup ("E", 15 + 0)
        (fill_template "r" "x" Option.none "m" [(⟨"A", 10000, 2⟩ : NormRow)]
          [(⟨"B", 0, 3⟩ : NormRow)] 20000 0 20000 0 "s") =
      Option.some (CellValue.int 10000) ∧
    cellLookup ("N", 15 + 0)
        (fill_template "r" "x" Option.none "m" [(⟨"A", 10000, 2⟩ : NormRow)]
          [(⟨"B", 0, 3⟩ : NormRow)] 20000 0 20000 0 "s") =
      Option.some (CellValue.str "") :=
  ⟨by decide,
   ((fill_template_zero_blank "r" "x" Option.none "m" _ _ 20000 0 20000 0 "s").1 0
      (by decide)).1,
   ((fill_template_zero_blank "r" "x" Option.none "m" _ _ 20000 0 20000 0 "s").2 0
      (by decide)).1⟩

/-! ## Claims C6, C7, C8: request handler error handling and frame effects -/

/-- A `send_email` event carrying a whitespace-only email address. -/
def demoEmptyEmailEvent : Event :=
  { action := Option.some "send_email", request_id := Option.some "1",
    data := { email := Option.some "  " } }

/-- A well-formed `send_email` event with recipient, email and quote date. -/
def demoSendEvent : Event :=
  { action := Option.some "send_email", request_id := Option.some "1",
    data := { recipient := Option.some "kim", email := Option.some "a@b.c",
              quote_date := Option.some ⟨2026, 1, 2⟩ } }

/-- C6: a `send_email` event whose trimmed email is empty, with a successful
conversion, yields a `message` response, attempts no delivery, and writes no
artifact files (the effect trace is empty). -/
theorem handle_event_empty_email (backends : List (Except String String))
    (transport : Except String Unit) (ev : Event) (save_dir : String)
    (nowMs : Nat) (today : PyDate) (pdf : String)
    (hconv : convert_excel_to_pdf backends = Except.ok pdf)
    (hact : ev.action = Option.some "send_email")
    (hemail : pyStrip (optStr ev.data.email) = "") :
    (handle_event backends transport ev save_dir nowMs today).1.type = "message" ∧
    (handle_event backends transport ev save_dir nowMs today).2 = [] := by
  simp [handle_event, hconv, hact, hemail]

theorem handle_event_empty_email_witness :
    convert_excel_to_pdf [Except.ok "PDF"] = Except.ok "PDF" ∧
    pyStrip (optStr demoEmptyEmailEvent.data.email) = "" ∧
    (handle_event [Except.ok "PDF"] (Except.ok ()) demoEmptyEmailEvent
        "out" 0 ⟨2026, 1, 2⟩).1.type = "message" ∧
    (handle_event [Except.ok "PDF"] (Except.ok ()) demoEmptyEmailEvent
        "out" 0 ⟨2026, 1, 2⟩).2 = [] := by
  have h := handle_event_empty_email [Except.ok "PDF"] (Except.ok ())
    demoEmptyEmailEvent "out" 0 ⟨2026, 1, 2⟩ "PDF" rfl rfl rfl
  exact ⟨rfl, rfl, h.1, h.2⟩

/-- C7: the converter aggregates all backend error messages; and when
conversion fails, `handle_event` answers with a `message` response carrying
that aggregated error text and performs neither persistence nor delivery. -/
theorem handle_event_conversion_failure :
    (∀ msgs : List String, msgs ≠ [] →
      convert_excel_to_pdf (msgs.map Except.error) =
        Except.error (String.intercalate " / " msgs)) ∧
    (∀ (backends : List (Except String String)) (transport : Except String Unit)
      (ev : Event) (save_dir : String) (nowMs : Nat) (today : PyDate) (e : String),
      convert_excel_to_pdf backends = Except.error e →
      (handle_event backends transport ev save_dir nowMs today).1.type = "message" ∧
      (handle_event backends transport ev save_dir nowMs today).1.message =
        Option.some ("PDF 생성 실패: " ++ e) ∧
      (handle_event backends transport ev save_dir nowMs today).2 = []) := by
  constructor
  · have hgen : ∀ (msgs : List String) (errs : List String),
        convertGo (msgs.map Except.error) errs =
          Except.error (String.intercalate " / "
            (if errs ++ msgs = [] then ["PDF 변환 도구를 찾을 수 없습니다."]
             else errs ++ msgs)) := by
      intro msgs
      induction msgs with
      | nil => intro errs; simp [convertGo]
      | cons m ms ih =>
        intro errs
        simp only [List.map_cons, convertGo, ih (errs ++ [m]), List.append_assoc,
          List.singleton_append]
    intro msgs hne
    have h := hgen msgs []
    rw [List.nil_append] at h
    rw [convert_excel_to_pdf, h, if_neg hne]
  · intro backends transport ev save_dir nowMs today e hconv
    refine ⟨?_, ?_, ?_⟩ <;> simp [handle_event, hconv]

theorem handle_event_conversion_failure_witness :
    (["Excel 변환 실패: x", "LibreOffice 변환 실패"] ≠ ([] : List String)) ∧
    convert_excel_to_pdf
        (["Excel 변환 실패: x", "LibreOffice 변환 실패"].map Except.error) =
      Except.error (String.intercalate " / "
        ["Excel 변환 실패: x", "LibreOffice 변환 실패"]) ∧
    convert_excel_to_pdf [] =
      Except.error "PDF 변환 도구를 찾을 수 없습니다." ∧
    (handle_event [] (Except.ok ())
        { action := Option.some "download_pdf" } "out" 0 ⟨2026, 1, 2⟩).1.type =
      "message" ∧
    (handle_event [] (Except.ok ())
        { action := Option.some "download_pdf" } "out" 0 ⟨2026, 1, 2⟩).1.message =
      Option.some ("PDF 생성 실패: " ++ "PDF 변환 도구를 찾을 수 없습니다.") ∧
    (handle_event [] (Except.ok ())
        { action := Option.some "download_pdf" } "out" 0 ⟨2026, 1, 2⟩).2 = [] := by
  have h1 := handle_event_conversion_failure.1
    ["Excel 변환 실패: x", "LibreOffice 변환 실패"] (by decide)
  have h2 := handle_event_conversion_failure.2 [] (Except.ok ())
    { action := Option.some "download_pdf" } "out" 0 ⟨2026, 1, 2⟩
    "PDF 변환 도구를 찾을 수 없습니다." rfl
  exact ⟨by decide, h1, rfl, h2.1, h2.2.1, h2.2.2⟩

/-- C8: an artifact write occurs only for a `send_email` action on a request
whose conversion succeeded, whose trimmed email is non-empty and whose
delivery succeeded — for every other action/outcome combination the effect
trace holds no artifact write. -/
theorem handle_event_persist_only_on_send_success
    (backends : List (Except String String)) (transport : Except String Unit)
    (ev : Event) (save_dir : String) (nowMs : Nat) (today : PyDate)
    (d s : String)
    (h : Effect.saveArtifactsEff d s ∈
      (handle_event backends transport ev save_dir nowMs today).2) :
    ev.action = Option.some "send_email" ∧
    (∃ pdf, convert_excel_to_pdf backends = Except.ok pdf) ∧
    transport = Except.ok () ∧
    pyStrip (optStr ev.data.email) ≠ "" := by
  simp only [handle_event] at h
  split at h
  · simp at h
  · rename_i pdf_bytes hconv
    by_cases hact : ev.action = Option.some "send_email"
    · rw [if_pos hact] at h
      by_cases hemail : pyStrip (optStr ev.data.email) = ""
      · rw [if_pos hemail] at h
        simp at h
      · rw [if_neg hemail] at h
        split at h
        · simp at h
        · exact ⟨hact, ⟨pdf_bytes, hconv⟩, rfl, hemail⟩
    · rw [if_neg hact] at h
      by_cases hdl : ev.action = Option.some "download_pdf"
      · rw [if_pos hdl] at h
        simp at h
      · rw [if_neg hdl] at h
        by_cases hpv : ev.action = Option.some "preview_pdf"
        · rw [if_pos hpv] at h
          simp at h
        · rw [if_neg hpv] at h
          simp at h

theorem handle_event_persist_only_on_send_success_witness :
    (Effect.saveArtifactsEff "out"
        (build_filename "kim" (Option.some ⟨2026, 1, 2⟩) ⟨2026, 1, 2⟩) ∈
      (handle_event [Except.ok "PDF"] (Except.ok ()) demoSendEvent
        "out" 0 ⟨2026, 1, 2⟩).2) ∧
    demoSendEvent.action = Option.some "send_email" ∧
    (∃ pdf, convert_excel_to_pdf [Except.ok "PDF"] = Except.ok pdf) ∧
    (Except.ok () : Except String Unit) = Except.ok () ∧
    pyStrip (optStr demoSendEvent.data.email) ≠ "" := by
  have hmem : Effect.saveArtifactsEff "out"
      (build_filename "kim" (Option.some ⟨2026, 1, 2⟩) ⟨2026, 1, 2⟩) ∈
      (handle_event [Except.ok "PDF"] (Except.ok ()) demoSendEvent
        "out" 0 ⟨2026, 1, 2⟩).2 := by
    decide
  have h := handle_event_persist_only_on_send_success [Except.ok "PDF"] (Except.ok ())
    demoSendEvent "out" 0 ⟨2026, 1, 2⟩ "out"
    (build_filename "kim" (Option.some ⟨2026, 1, 2⟩) ⟨2026, 1, 2⟩) hmem
  exact ⟨hmem, h.1, h.2.1, h.2.2.1, h.2.2.2⟩

/-! ## Claim C9 -/

/-- A secrets store that only defines `gmail_user`. -/
def secretsUserOnly : String → Option String :=
  fun k => if k = "gmail_user" then Option.some "user@example.com" else Option.none

/-- An environment that only defines `GMAIL_APP_PASSWORD`. -/
def envPasswordOnly : String → Option String :=
  fun k => if k = "GMAIL_APP_PASSWORD" then Option.some "app-pass" else Option.none

/-- C9 (counterexample): credentials are not resolved "as a pair in the
order hardcoded, then secrets, then environment": with the user only in the
secrets store and the password only in the environment, no single source
yields a complete pair — yet delivery does not fail, because the code
resolves the two components independently. -/
theorem resolve_credentials_pair_cex :
    ¬ (∀ secrets env : String → Option String,
        send_email_credentials_missing secrets env = true ↔
          resolveCredentialsPairSpec secrets env = Option.none) := by
  intro hclaim
  have h2 := (hclaim secretsUserOnly envPasswordOnly).mpr (by decide)
  have h3 : send_email_credentials_missing secretsUserOnly envPasswordOnly = false := by
    decide
  rw [h3] at h2
  exact absurd h2 (by decide)

/-- C9 (amended): the hardcoded pair is used only when both hardcoded
constants are non-empty (never in this build, since the hardcoded app
password is empty); otherwise the user and the password are each resolved
independently — secrets-store value first, environment variable as fallback,
with empty strings treated as missing — and delivery fails with the
credentials-missing error exactly when the resolved user or the resolved
password is missing or empty. -/
theorem resolve_credentials_componentwise (secrets env : String → Option String) :
    (truthyOpt (secrets "gmail_user") = true →
      (resolve_gmail_credentials secrets env).1 = secrets "gmail_user") ∧
    (truthyOpt (secrets "gmail_user") = false →
      (resolve_gmail_credentials secrets env).1 = env "GMAIL_USER") ∧
    (truthyOpt (secrets "gmail_app_password") = true →
      (resolve_gmail_credentials secrets env).2 = secrets "gmail_app_password") ∧
    (truthyOpt (secrets "gmail_app_password") = false →
      (resolve_gmail_credentials secrets env).2 = env "GMAIL_APP_PASSWORD") ∧
    (send_email_credentials_missing secrets env = true ↔
      (truthyOpt (resolve_gmail_credentials secrets env).1 = false ∨
       truthyOpt (resolve_gmail_credentials secrets env).2 = false)) := by
  have hhard : ¬ (HARDCODE_GMAIL_USER ≠ "" ∧ HARDCODE_GMAIL_APP_PASSWORD ≠ "") := by
    decide
  refine ⟨?_, ?_, ?_, ?_, ?_⟩
  · intro ht
    simp [resolve_gmail_credentials, if_neg hhard, pyOrOpt, ht]
  · intro ht
    simp [resolve_gmail_credentials, if_neg hhard, pyOrOpt, ht]
  · intro ht
    simp [resolve_gmail_credentials, if_neg hhard, pyOrOpt, ht]
  · intro ht
    simp [resolve_gmail_credentials, if_neg hhard, pyOrOpt, ht]
  · unfold send_email_credentials_missing
    constructor
    · intro hmiss
      rcases Bool.or_eq_true_iff.1 hmiss with hu | hp
      · exact Or.inl (by simpa using hu)
      · exact Or.inr (by simpa using hp)
    · intro hor
      rcases hor with hu | hp
      · exact Bool.or_eq_true_iff.2 (Or.inl (by simp [hu]))
      · exact Bool.or_eq_true_iff.2 (Or.inr (by simp [hp]))

theorem resolve_credentials_componentwise_witness :
    truthyOpt (secretsUserOnly "gmail_user") = true ∧
    (resolve_gmail_credentials secretsUserOnly envPasswordOnly).1 =
      secretsUserOnly "gmail_user" ∧
    truthyOpt (secretsUserOnly "gmail_app_password") = false ∧
    (resolve_gmail_credentials secretsUserOnly envPasswordOnly).2 =
      envPasswordOnly "GMAIL_APP_PASSWORD" :=
  ⟨by decide,
   (resolve_credentials_componentwise secretsUserOnly envPasswordOnly).1 (by decide),
   by decide,
   (resolve_credentials_componentwise secretsUserOnly envPasswordOnly).2.2.2.1
     (by decide)⟩

end PriceCompare
